import Mathlib

/-!
Verification of the client bootstrap script `js/main.js` of this repository.

The script is browser JavaScript; we embed the parts the specification talks
about as pure Lean functions over an explicit page/storage state:

* `localStorage` is an association list of string keys to string values
  (`getItem` / `setItem` / `removeItem` mirror the Storage API calls used);
* `JSON.stringify` / `JSON.parse` are modelled by an executable codec over the
  subset of JSON the script actually produces and the spec discusses: strings,
  integer numbers, booleans, `null`, and one-level objects with such fields
  (the script only ever writes flat objects, and only reads string-valued
  fields and the numeric `expiry` field).  Arrays, nested objects, fractional
  or exponent number forms, `\u` escapes and inter-token whitespace are
  outside the modelled subset: `parseJVal` rejects them where the browser
  parser may accept them, which affects no claim considered here;
* the DOM containers the script writes (`#app-header`, `#app-footer`,
  `.auth-container`) are `Option String` fields of a `PageState` record
  (`none` = no element matches the selector, `some h` = the element exists
  and its `innerHTML` is `h`);
* a thrown JavaScript exception is an `Except.error`;
* `fetch` outcomes and the current clock are explicit parameters.
-/

/-! ## localStorage model -/

/-- Model of `localStorage.getItem key`: first (only) binding of `key`, if any. -/
def getItem (st : List (String × String)) (k : String) : Option String :=
  (st.find? (fun p => p.1 == k)).map (fun p => p.2)

/-- Model of `localStorage.removeItem key`. -/
def removeItem (st : List (String × String)) (k : String) : List (String × String) :=
  st.filter (fun p => !(p.1 == k))

/-- Model of `localStorage.setItem key value`: overwrite in place, else append. -/
def setItem (st : List (String × String)) (k v : String) : List (String × String) :=
  if st.any (fun p => p.1 == k) then
    st.map (fun p => if p.1 == k then (k, v) else p)
  else
    st ++ [(k, v)]

theorem getItem_setItem (st : List (String × String)) (k v : String) :
    getItem (setItem st k v) k = some v := by
  unfold getItem setItem
  by_cases h : st.any (fun p => p.1 == k) = true
  · simp only [h, if_true]
    induction st with
    | nil => simp at h
    | cons p rest ih =>
      by_cases hp : p.1 == k
      · simp [List.find?, hp]
      · simp only [List.any_cons, Bool.or_eq_true] at h
        rcases h with h | h
        · simp [hp] at h
        · simpa [List.find?, hp] using ih h
  · simp only [h, if_false]
    induction st with
    | nil => simp [List.find?]
    | cons p rest ih =>
      simp only [List.any_cons, Bool.or_eq_true, not_or] at h
      have hp : (p.1 == k) = false := by
        cases hpk : p.1 == k
        · rfl
        · exact absurd hpk h.1
      simp only [List.cons_append, List.find?, hp]
      exact ih (by simpa using h.2)

theorem getItem_map_update (st : List (String × String)) (k k' v : String)
    (h : k ≠ k') :
    getItem (st.map (fun p => if p.1 == k then (k, v) else p)) k' = getItem st k' := by
  unfold getItem
  induction st with
  | nil => rfl
  | cons p rest ih =>
    by_cases hp : p.1 == k
    · have hpk : p.1 = k := by simpa using hp
      have h1 : (k == k') = false := by simpa using h
      have h2 : (p.1 == k') = false := by simp [hpk, h1]
      simp only [List.map_cons, hp, if_true, List.find?, h1, h2]
      exact ih
    · have hpb : (p.1 == k) = false := by simpa using hp
      by_cases hq : p.1 == k'
      · simp [List.find?, hpb, hq]
      · have hqb : (p.1 == k') = false := by simpa using hq
        simpa [List.find?, hpb, hqb] using ih

theorem getItem_append_single_ne (st : List (String × String)) (k k' v : String)
    (h : k ≠ k') : getItem (st ++ [(k, v)]) k' = getItem st k' := by
  unfold getItem
  induction st with
  | nil => simp [List.find?, (by simpa using h : (k == k') = false)]
  | cons p rest ih =>
    by_cases hq : p.1 == k'
    · simp [List.find?, hq]
    · have hqb : (p.1 == k') = false := by simpa using hq
      simp only [List.cons_append, List.find?, hqb]
      exact ih

theorem getItem_setItem_ne (st : List (String × String)) (k k' v : String)
    (h : k ≠ k') : getItem (setItem st k v) k' = getItem st k' := by
  unfold setItem
  by_cases ha : st.any (fun p => p.1 == k) = true
  · simp only [ha, if_true]
    exact getItem_map_update st k k' v h
  · simp only [ha, if_false]
    exact getItem_append_single_ne st k k' v h

theorem getItem_removeItem (st : List (String × String)) (k : String) :
    getItem (removeItem st k) k = none := by
  unfold getItem removeItem
  induction st with
  | nil => simp
  | cons p rest ih =>
    by_cases hp : p.1 == k
    · simpa [List.filter, hp] using ih
    · have hpb : (p.1 == k) = false := by simpa using hp
      simpa [List.filter, hpb, List.find?] using ih

theorem getItem_removeItem_ne (st : List (String × String)) (k k' : String)
    (h : k ≠ k') : getItem (removeItem st k) k' = getItem st k' := by
  unfold getItem removeItem
  induction st with
  | nil => simp
  | cons p rest ih =>
    by_cases hp : p.1 == k
    · have hpk : p.1 = k := by simpa using hp
      have h1 : (k == k') = false := by simpa using h
      simpa [List.filter, hp, List.find?, hpk, h1] using ih
    · have hpb : (p.1 == k) = false := by simpa using hp
      by_cases hq : p.1 == k'
      · simp [List.filter, hpb, List.find?, hq]
      · have hqb : (p.1 == k') = false := by simpa using hq
        simpa [List.filter, hpb, List.find?, hqb] using ih

theorem removeItem_of_absent (st : List (String × String)) (k : String)
    (h : getItem st k = none) : removeItem st k = st := by
  unfold getItem at h
  unfold removeItem
  induction st with
  | nil => rfl
  | cons p rest ih =>
    by_cases hp : p.1 == k
    · simp [List.find?, hp] at h
    · have hpb : (p.1 == k) = false := by simpa using hp
      simp only [List.find?, hpb] at h
      simp [List.filter, hpb, ih h]

theorem setItem_of_absent (st : List (String × String)) (k v : String)
    (h : getItem st k = none) : setItem st k v = st ++ [(k, v)] := by
  unfold getItem at h
  unfold setItem
  have : st.any (fun p => p.1 == k) = false := by
    induction st with
    | nil => rfl
    | cons p rest ih =>
      by_cases hp : p.1 == k
      · simp [List.find?, hp] at h
      · have hpb : (p.1 == k) = false := by simpa using hp
        simp only [List.find?, hpb] at h
        simp [hpb, ih h]
  simp [this]

/-! ## JSON model (`JSON.stringify` / `JSON.parse` on the subset the script uses) -/

/-- A primitive JSON value: string, integer number, boolean, or null.
(JavaScript numbers are floats; every number this script stores is an
integer — epoch milliseconds — so `Int` models them.) -/
inductive JPrim where
  | str (s : String)
  | num (n : Int)
  | bool (b : Bool)
  | null
deriving DecidableEq, Repr

/-- A top-level JSON value: a primitive or a flat object with primitive fields. -/
inductive JVal where
  | prim (p : JPrim)
  | obj (fields : List (String × JPrim))
deriving DecidableEq, Repr

/-- JSON string-character escaping as `JSON.stringify` performs it
(quote, backslash, and the common control characters the script could
ever see; other control characters are outside the modelled subset). -/
def jsonEscChar (c : Char) : List Char :=
  if c = '"' then ['\\', '"']
  else if c = '\\' then ['\\', '\\']
  else if c = '\n' then ['\\', 'n']
  else if c = '\t' then ['\\', 't']
  else if c = '\r' then ['\\', 'r']
  else [c]

/-- Characters of a JSON string literal (with the quotes). -/
def quoteChars (s : String) : List Char :=
  '"' :: s.data.flatMap jsonEscChar ++ ['"']

/-- The character of a decimal digit. -/
def digitCh (d : Nat) : Char := Char.ofNat (48 + d)

/-- Big-endian decimal digit characters of a natural number. -/
def natChars (n : Nat) : List Char :=
  if n = 0 then ['0']
  else ((Nat.digits 10 n).reverse.map digitCh)

/-- Decimal characters of an integer, as `JSON.stringify` prints integers. -/
def intChars (n : Int) : List Char :=
  if n < 0 then '-' :: natChars n.natAbs else natChars n.toNat

/-- Characters of a stringified primitive. -/
def primChars (p : JPrim) : List Char :=
  match p with
  | .str s => quoteChars s
  | .num n => intChars n
  | .bool b => if b then ['t', 'r', 'u', 'e'] else ['f', 'a', 'l', 's', 'e']
  | .null => ['n', 'u', 'l', 'l']

/-- Characters of the body of a stringified object, from the first key
(or the closing brace when there are no fields) to the closing brace. -/
def fieldsBody (fs : List (String × JPrim)) : List Char :=
  match fs with
  | [] => ['\x7d']
  | (k, p) :: [] => quoteChars k ++ ':' :: primChars p ++ ['\x7d']
  | (k, p) :: rest => quoteChars k ++ ':' :: primChars p ++ ',' :: fieldsBody rest

/-- Model of `JSON.stringify` on the modelled subset. -/
def stringifyJVal (v : JVal) : String :=
  match v with
  | .prim p => String.mk (primChars p)
  | .obj fs => String.mk ('\x7b' :: fieldsBody fs)

/-- Inverse of a single-character escape sequence. -/
def unescChar (c : Char) : Option Char :=
  if c = '"' then some '"'
  else if c = '\\' then some '\\'
  else if c = '/' then some '/'
  else if c = 'n' then some '\n'
  else if c = 't' then some '\t'
  else if c = 'r' then some '\r'
  else none

/-- Parse the body of a JSON string literal (after the opening quote);
returns the decoded characters and the input after the closing quote. -/
def parseStringBody (cs : List Char) : Option (List Char × List Char) :=
  match cs with
  | [] => none
  | c :: rest =>
    if c = '"' then some ([], rest)
    else if c = '\\' then
      match rest with
      | [] => none
      | e :: rest2 =>
        match unescChar e with
        | some d => (parseStringBody rest2).map (fun pr => (d :: pr.1, pr.2))
        | none => none
    else (parseStringBody rest).map (fun pr => (c :: pr.1, pr.2))

/-- Consume leading decimal digits, Horner-accumulating their value. -/
def parseNatAux (cs : List Char) (acc : Nat) : Nat × List Char :=
  match cs with
  | [] => (acc, [])
  | c :: rest =>
    if c.isDigit then parseNatAux rest (acc * 10 + (c.toNat - 48))
    else (acc, c :: rest)

/-- Parse a nonempty digit run as a natural number. -/
def parseNat (cs : List Char) : Option (Nat × List Char) :=
  match cs with
  | [] => none
  | c :: _ => if c.isDigit then some (parseNatAux cs 0) else none

/-- Parse one primitive JSON token. -/
def parsePrim (cs : List Char) : Option (JPrim × List Char) :=
  match cs with
  | [] => none
  | c :: rest =>
    if c = '"' then
      (parseStringBody rest).map (fun pr => (JPrim.str (String.mk pr.1), pr.2))
    else if c = '-' then
      (parseNat rest).map (fun pr => (JPrim.num (-(pr.1 : Int)), pr.2))
    else if c.isDigit then
      (parseNat cs).map (fun pr => (JPrim.num (pr.1 : Int), pr.2))
    else
      match cs with
      | 't' :: 'r' :: 'u' :: 'e' :: r => some (.bool true, r)
      | 'f' :: 'a' :: 'l' :: 's' :: 'e' :: r => some (.bool false, r)
      | 'n' :: 'u' :: 'l' :: 'l' :: r => some (.null, r)
      | _ => none

/-- Parse the fields of an object, positioned just after `\x7b` or after a
comma; consumes through the closing brace. -/
def parseFields (fuel : Nat) (cs : List Char) :
    Option (List (String × JPrim) × List Char) :=
  match fuel, cs with
  | _, '\x7d' :: rest => some ([], rest)
  | Nat.succ f, '"' :: rest =>
    match parseStringBody rest with
    | none => none
    | some (k, r1) =>
      match r1 with
      | ':' :: r2 =>
        match parsePrim r2 with
        | none => none
        | some (p, r3) =>
          match r3 with
          | ',' :: ('"' :: r4) =>
            (parseFields f ('"' :: r4)).map
              (fun pr => ((String.mk k, p) :: pr.1, pr.2))
          | '\x7d' :: r4 => some ([(String.mk k, p)], r4)
          | _ => none
      | _ => none
  | _, _ => none

/-- Model of `JSON.parse` on the modelled subset; `none` models a thrown `SyntaxError`. -/
def parseJVal (s : String) : Option JVal :=
  match s.data with
  | '\x7b' :: rest =>
    match parseFields s.data.length rest with
    | some (fs, []) => some (.obj fs)
    | _ => none
  | _ =>
    match parsePrim s.data with
    | some (p, []) => some (.prim p)
    | _ => none

/-! ### Codec roundtrip -/

/-- Whether the input begins with a decimal digit (greedy-number boundary). -/
def digitLeading (cs : List Char) : Bool :=
  match cs with
  | [] => false
  | c :: _ => c.isDigit

theorem string_mk_data (s : String) : String.mk s.data = s := rfl

theorem parseStringBody_round (cs rest : List Char) :
    parseStringBody (cs.flatMap jsonEscChar ++ '"' :: rest) = some (cs, rest) := by
  induction cs with
  | nil =>
    simp only [List.flatMap_nil, List.nil_append]
    rw [parseStringBody.eq_def]
    simp
  | cons c cs ih =>
    by_cases h1 : c = '"'
    · subst h1
      have hstep : ('"' :: cs).flatMap jsonEscChar ++ '"' :: rest =
          '\\' :: '"' :: (cs.flatMap jsonEscChar ++ '"' :: rest) := by
        simp [jsonEscChar]
      rw [hstep, parseStringBody.eq_def]
      simp [unescChar, ih]
    · by_cases h2 : c = '\\'
      · subst h2
        have hstep : ('\\' :: cs).flatMap jsonEscChar ++ '"' :: rest =
            '\\' :: '\\' :: (cs.flatMap jsonEscChar ++ '"' :: rest) := by
          simp [jsonEscChar]
        rw [hstep, parseStringBody.eq_def]
        simp [unescChar, ih]
      · by_cases h3 : c = '\n'
        · subst h3
          have hstep : ('\n' :: cs).flatMap jsonEscChar ++ '"' :: rest =
              '\\' :: 'n' :: (cs.flatMap jsonEscChar ++ '"' :: rest) := by
            simp [jsonEscChar]
          rw [hstep, parseStringBody.eq_def]
          simp [unescChar, ih]
        · by_cases h4 : c = '\t'
          · subst h4
            have hstep : ('\t' :: cs).flatMap jsonEscChar ++ '"' :: rest =
                '\\' :: 't' :: (cs.flatMap jsonEscChar ++ '"' :: rest) := by
              simp [jsonEscChar]
            rw [hstep, parseStringBody.eq_def]
            simp [unescChar, ih]
          · by_cases h5 : c = '\r'
            · subst h5
              have hstep : ('\r' :: cs).flatMap jsonEscChar ++ '"' :: rest =
                  '\\' :: 'r' :: (cs.flatMap jsonEscChar ++ '"' :: rest) := by
                simp [jsonEscChar]
              rw [hstep, parseStringBody.eq_def]
              simp [unescChar, ih]
            · have hstep : (c :: cs).flatMap jsonEscChar ++ '"' :: rest =
                  c :: (cs.flatMap jsonEscChar ++ '"' :: rest) := by
                simp [jsonEscChar, h1, h2, h3, h4, h5]
              rw [hstep, parseStringBody.eq_def]
              simp [h1, h2, ih]

theorem digitCh_isDigit {d : Nat} (h : d < 10) : (digitCh d).isDigit = true := by
  interval_cases d <;> decide

theorem digitCh_toNat {d : Nat} (h : d < 10) : (digitCh d).toNat - 48 = d := by
  interval_cases d <;> decide

theorem digitCh_ne_quote {d : Nat} (h : d < 10) : digitCh d ≠ '"' := by
  interval_cases d <;> decide

theorem digitCh_ne_minus {d : Nat} (h : d < 10) : digitCh d ≠ '-' := by
  interval_cases d <;> decide

theorem parseNatAux_digits (ds : List Nat) (rest : List Char) (acc : Nat)
    (hds : ∀ d ∈ ds, d < 10) (hrest : digitLeading rest = false) :
    parseNatAux (ds.map digitCh ++ rest) acc =
      (ds.foldl (fun a d => a * 10 + d) acc, rest) := by
  induction ds generalizing acc with
  | nil =>
    cases rest with
    | nil => simp [parseNatAux]
    | cons c r =>
      simp only [digitLeading] at hrest
      simp [parseNatAux, hrest]
  | cons d ds ih =>
    have hd : d < 10 := hds d (by simp)
    simp only [List.map_cons, List.cons_append, parseNatAux, digitCh_isDigit hd,
      if_true, digitCh_toNat hd]
    exact ih _ (fun x hx => hds x (List.mem_cons_of_mem _ hx))

theorem foldl_reverse_digits (L : List Nat) (acc : Nat) :
    L.reverse.foldl (fun a d => a * 10 + d) acc =
      acc * 10 ^ L.length + Nat.ofDigits 10 L := by
  induction L generalizing acc with
  | nil => simp
  | cons d L ih =>
    simp only [List.reverse_cons, List.foldl_append, List.foldl_cons, List.foldl_nil,
      ih, List.length_cons, Nat.ofDigits_cons, pow_succ]
    ring

theorem natChars_head_digit (n : Nat) :
    ∃ c cs, natChars n = c :: cs ∧ c.isDigit = true ∧ c ≠ '"' ∧ c ≠ '-' := by
  unfold natChars
  by_cases h : n = 0
  · exact ⟨'0', [], by simp [h], by decide, by decide, by decide⟩
  · have hne : Nat.digits 10 n ≠ [] := Nat.digits_ne_nil_iff_ne_zero.mpr h
    have hne' : (Nat.digits 10 n).reverse ≠ [] := by simpa using hne
    obtain ⟨d, ds, hds⟩ := List.exists_cons_of_ne_nil hne'
    have hd : d < 10 := by
      have : d ∈ (Nat.digits 10 n).reverse := by simp [hds]
      exact Nat.digits_lt_base (by norm_num) (by simpa using this)
    refine ⟨digitCh d, ds.map digitCh, ?_, digitCh_isDigit hd,
      digitCh_ne_quote hd, digitCh_ne_minus hd⟩
    simp [h, hds]

theorem parseNatAux_natChars (n : Nat) (rest : List Char)
    (hrest : digitLeading rest = false) :
    parseNatAux (natChars n ++ rest) 0 = (n, rest) := by
  unfold natChars
  by_cases h : n = 0
  · subst h
    have := parseNatAux_digits [0] rest 0 (by simp) hrest
    simpa [digitCh] using this
  · simp only [h, if_false]
    have hlt : ∀ d ∈ (Nat.digits 10 n).reverse, d < 10 := by
      intro d hd
      exact Nat.digits_lt_base (by norm_num) (by simpa using hd)
    have := parseNatAux_digits ((Nat.digits 10 n).reverse) rest 0 hlt hrest
    rw [this, foldl_reverse_digits]
    simp [Nat.ofDigits_digits]

theorem parseNat_natChars (n : Nat) (rest : List Char)
    (hrest : digitLeading rest = false) :
    parseNat (natChars n ++ rest) = some (n, rest) := by
  obtain ⟨c, cs, hc, hdig, _, _⟩ := natChars_head_digit n
  have hshape : natChars n ++ rest = c :: (cs ++ rest) := by simp [hc]
  rw [hshape]
  have := parseNatAux_natChars n rest hrest
  rw [hshape] at this
  simp [parseNat, hdig, this]

theorem parsePrim_round (p : JPrim) (rest : List Char)
    (hrest : digitLeading rest = false) :
    parsePrim (primChars p ++ rest) = some (p, rest) := by
  cases p with
  | str s =>
    have hstep : primChars (.str s) ++ rest =
        '"' :: (s.data.flatMap jsonEscChar ++ '"' :: rest) := by
      simp [primChars, quoteChars]
    rw [hstep, parsePrim.eq_def]
    simp [parseStringBody_round, string_mk_data]
  | num n =>
    by_cases hneg : n < 0
    · have hstep : primChars (.num n) ++ rest =
          '-' :: (natChars n.natAbs ++ rest) := by
        simp [primChars, intChars, hneg]
      rw [hstep, parsePrim.eq_def]
      have hval : (-(n.natAbs : Int)) = n := by omega
      simp only [show ¬('-' = '"') from by decide, if_false, if_true,
        show ('-' = '-') from rfl, Option.map_eq_some']
      exact ⟨(n.natAbs, rest), parseNat_natChars n.natAbs rest hrest, by rw [hval]⟩
    · obtain ⟨c, cs, hc, hdig, hq, hm⟩ := natChars_head_digit n.toNat
      have hstep : primChars (.num n) ++ rest = c :: (cs ++ rest) := by
        simp [primChars, intChars, hneg, hc]
      rw [hstep, parsePrim.eq_def]
      have hnum := parseNat_natChars n.toNat rest hrest
      rw [hc] at hnum
      have hton : ((n.toNat : Int)) = n := Int.toNat_of_nonneg (by omega)
      simp only [hq, hm, hdig, if_false, if_true, Option.map_eq_some']
      exact ⟨(n.toNat, rest), by simpa using hnum, by rw [hton]⟩
  | bool b =>
    cases b with
    | true =>
      have hstep : primChars (.bool true) ++ rest =
          't' :: 'r' :: 'u' :: 'e' :: rest := by simp [primChars]
      rw [hstep, parsePrim.eq_def]
      simp
    | false =>
      have hstep : primChars (.bool false) ++ rest =
          'f' :: 'a' :: 'l' :: 's' :: 'e' :: rest := by simp [primChars]
      rw [hstep, parsePrim.eq_def]
      simp
  | null =>
    have hstep : primChars .null ++ rest = 'n' :: 'u' :: 'l' :: 'l' :: rest := by
      simp [primChars]
    rw [hstep, parsePrim.eq_def]
    simp

theorem isDigit_ne_brace {c : Char} (h : c.isDigit = true) : c ≠ '\x7b' := by
  intro he
  subst he
  simp at h

theorem fieldsBody_cons_shape (k : String) (p : JPrim) (fs : List (String × JPrim)) :
    ∃ t, fieldsBody ((k, p) :: fs) = '"' :: t := by
  cases fs with
  | nil =>
    refine ⟨k.data.flatMap jsonEscChar ++ '"' :: ':' :: (primChars p ++ ['\x7d']), ?_⟩
    simp [fieldsBody, quoteChars]
  | cons kp2 fs2 =>
    refine ⟨k.data.flatMap jsonEscChar ++
      '"' :: ':' :: (primChars p ++ ',' :: fieldsBody (kp2 :: fs2)), ?_⟩
    simp [fieldsBody, quoteChars]

theorem digitLeading_comma (xs : List Char) : digitLeading (',' :: xs) = false := by
  simp only [digitLeading]
  decide

theorem digitLeading_brace (xs : List Char) : digitLeading ('\x7d' :: xs) = false := by
  simp only [digitLeading]
  decide

theorem parseFields_round (fs : List (String × JPrim)) (fuel : Nat) (rest : List Char)
    (h : fs.length ≤ fuel) :
    parseFields fuel (fieldsBody fs ++ rest) = some (fs, rest) := by
  induction fs generalizing fuel rest with
  | nil =>
    rw [show fieldsBody [] ++ rest = '\x7d' :: rest from by simp [fieldsBody]]
    rw [parseFields.eq_def]
    simp
  | cons kp fs ih =>
    obtain ⟨k, p⟩ := kp
    cases fuel with
    | zero => simp at h
    | succ f =>
      cases fs with
      | nil =>
        have hstep : fieldsBody [(k, p)] ++ rest =
            '"' :: (k.data.flatMap jsonEscChar ++
              '"' :: (':' :: (primChars p ++ '\x7d' :: rest))) := by
          simp [fieldsBody, quoteChars]
        have hsb := parseStringBody_round k.data
          (':' :: (primChars p ++ '\x7d' :: rest))
        have hpp := parsePrim_round p ('\x7d' :: rest) (digitLeading_brace rest)
        rw [hstep, parseFields.eq_def]
        simp [hsb, hpp, string_mk_data]
      | cons kp2 fs2 =>
        obtain ⟨t, ht⟩ := fieldsBody_cons_shape kp2.1 kp2.2 fs2
        have ht' : fieldsBody (kp2 :: fs2) = '"' :: t := by
          rw [← ht]
        have hstep : fieldsBody ((k, p) :: kp2 :: fs2) ++ rest =
            '"' :: (k.data.flatMap jsonEscChar ++
              '"' :: (':' :: (primChars p ++
                ',' :: (fieldsBody (kp2 :: fs2) ++ rest)))) := by
          simp [fieldsBody, quoteChars]
        have hsb := parseStringBody_round k.data
          (':' :: (primChars p ++ ',' :: (fieldsBody (kp2 :: fs2) ++ rest)))
        have hpp := parsePrim_round p (',' :: (fieldsBody (kp2 :: fs2) ++ rest))
          (digitLeading_comma _)
        have hih := ih f rest (by simpa using Nat.le_of_succ_le_succ h)
        rw [hstep, parseFields.eq_def]
        rw [ht'] at hsb hpp hih ⊢
        simp only [List.cons_append] at hsb hpp hih ⊢
        simp [hsb, hpp, string_mk_data, hih]

theorem length_le_fieldsBody (fs : List (String × JPrim)) :
    fs.length ≤ (fieldsBody fs).length := by
  induction fs with
  | nil => simp [fieldsBody]
  | cons kp fs ih =>
    obtain ⟨k, p⟩ := kp
    cases fs with
    | nil => simp [fieldsBody, quoteChars]
    | cons kp2 fs2 =>
      simp only [fieldsBody, quoteChars, List.length_cons, List.length_append] at *
      omega

theorem primChars_head_ne_brace (p : JPrim) :
    ∃ c cs, primChars p = c :: cs ∧ c ≠ '\x7b' := by
  cases p with
  | str s =>
    exact ⟨'"', s.data.flatMap jsonEscChar ++ ['"'],
      by simp [primChars, quoteChars], by decide⟩
  | num n =>
    by_cases hneg : n < 0
    · exact ⟨'-', natChars n.natAbs, by simp [primChars, intChars, hneg], by decide⟩
    · obtain ⟨c, cs, hc, hdig, _, _⟩ := natChars_head_digit n.toNat
      exact ⟨c, cs, by simp [primChars, intChars, hneg, hc], isDigit_ne_brace hdig⟩
  | bool b =>
    cases b with
    | true => exact ⟨'t', ['r', 'u', 'e'], by simp [primChars], by decide⟩
    | false => exact ⟨'f', ['a', 'l', 's', 'e'], by simp [primChars], by decide⟩
  | null => exact ⟨'n', ['u', 'l', 'l'], by simp [primChars], by decide⟩

theorem data_mk (l : List Char) : (String.mk l).data = l := rfl

theorem parse_stringify (v : JVal) : parseJVal (stringifyJVal v) = some v := by
  cases v with
  | prim p =>
    obtain ⟨c, cs, hc, hbr⟩ := primChars_head_ne_brace p
    have hpp := parsePrim_round p [] (by rfl)
    rw [List.append_nil] at hpp
    unfold parseJVal stringifyJVal
    rw [data_mk, hc]
    rw [hc] at hpp
    simp [hbr, hpp]
  | obj fs =>
    have hflen : fs.length ≤ ('\x7b' :: fieldsBody fs).length := by
      have := length_le_fieldsBody fs
      simp only [List.length_cons]
      omega
    have hpf := parseFields_round fs (('\x7b' :: fieldsBody fs).length) []
      (by simpa using hflen)
    rw [List.append_nil] at hpf
    unfold parseJVal stringifyJVal
    rw [data_mk]
    simp only [List.length_cons] at hpf ⊢
    simp [hpf]

/-! ## `escapeHTML`: browser text-node encoding

The source sets `div.textContent = text` and reads back `div.innerHTML`.
Per the HTML serialization algorithm, serializing a text node replaces
`&` with `&amp;`, `<` with `&lt;`, `>` with `&gt;` and U+00A0 with
`&nbsp;`; every other character — including `"` and the apostrophe —
is emitted unchanged. -/

/-- Serialization of one text-node character. -/
def textNodeEscChar (c : Char) : List Char :=
  if c = '&' then ['&', 'a', 'm', 'p', ';']
  else if c = '<' then ['&', 'l', 't', ';']
  else if c = '>' then ['&', 'g', 't', ';']
  else if c = '\u00A0' then ['&', 'n', 'b', 's', 'p', ';']
  else [c]

/-- The `escapeHTML` utility from `js/main.js` (text-node round trip through the DOM). -/
def escapeHTML (text : String) : String :=
  String.mk (text.data.flatMap textNodeEscChar)

/-- Recognize one of the four text-node entities at the head of the input
(the part after the ampersand); returns the decoded character and the rest. -/
def entHead (cs : List Char) : Option (Char × List Char) :=
  match cs with
  | 'a' :: 'm' :: 'p' :: ';' :: r => some ('&', r)
  | 'l' :: 't' :: ';' :: r => some ('<', r)
  | 'g' :: 't' :: ';' :: r => some ('>', r)
  | 'n' :: 'b' :: 's' :: 'p' :: ';' :: r => some ('\u00A0', r)
  | _ => none

theorem entHead_length {cs : List Char} {d : Char} {r : List Char}
    (h : entHead cs = some (d, r)) : r.length < cs.length := by
  unfold entHead at h
  split at h <;> simp_all <;> omega

/-- Decoder for the four text-node character entities; inverse of the
serialization above. -/
def decodeEnt (cs : List Char) : List Char :=
  match cs with
  | [] => []
  | c :: rest =>
    if c = '&' then
      match h : entHead rest with
      | some (d, r) => d :: decodeEnt r
      | none => c :: decodeEnt rest
    else c :: decodeEnt rest
termination_by cs.length
decreasing_by
  all_goals simp_wf
  · have := entHead_length h
    omega

/-- Every ampersand in the input starts one of the four entities. -/
def ampEntityOk (cs : List Char) : Bool :=
  match cs with
  | [] => true
  | c :: rest =>
    if c = '&' then
      match h : entHead rest with
      | some (_, r) => ampEntityOk r
      | none => false
    else ampEntityOk rest
termination_by cs.length
decreasing_by
  all_goals simp_wf
  · have := entHead_length h
    omega

theorem decodeEnt_escape (cs : List Char) :
    decodeEnt (cs.flatMap textNodeEscChar) = cs := by
  induction cs with
  | nil => simp [decodeEnt.eq_def]
  | cons c cs ih =>
    by_cases h1 : c = '&'
    · subst h1
      rw [show ('&' :: cs).flatMap textNodeEscChar =
        '&' :: 'a' :: 'm' :: 'p' :: ';' :: cs.flatMap textNodeEscChar from by
          simp [textNodeEscChar]]
      rw [decodeEnt.eq_def]
      simp [entHead, ih]
    · by_cases h2 : c = '<'
      · subst h2
        rw [show ('<' :: cs).flatMap textNodeEscChar =
          '&' :: 'l' :: 't' :: ';' :: cs.flatMap textNodeEscChar from by
            simp [textNodeEscChar]]
        rw [decodeEnt.eq_def]
        simp [entHead, ih]
      · by_cases h3 : c = '>'
        · subst h3
          rw [show ('>' :: cs).flatMap textNodeEscChar =
            '&' :: 'g' :: 't' :: ';' :: cs.flatMap textNodeEscChar from by
              simp [textNodeEscChar]]
          rw [decodeEnt.eq_def]
          simp [entHead, ih]
        · by_cases h4 : c = '\u00A0'
          · subst h4
            rw [show ('\u00A0' :: cs).flatMap textNodeEscChar =
              '&' :: 'n' :: 'b' :: 's' :: 'p' :: ';' :: cs.flatMap textNodeEscChar from by
                simp [textNodeEscChar]]
            rw [decodeEnt.eq_def]
            simp [entHead, ih]
          · rw [show (c :: cs).flatMap textNodeEscChar =
              c :: cs.flatMap textNodeEscChar from by
                simp [textNodeEscChar, h1, h2, h3, h4]]
            rw [decodeEnt.eq_def]
            simp [h1, ih]

theorem ampEntityOk_escape (cs : List Char) :
    ampEntityOk (cs.flatMap textNodeEscChar) = true := by
  induction cs with
  | nil => simp [ampEntityOk.eq_def]
  | cons c cs ih =>
    by_cases h1 : c = '&'
    · subst h1
      rw [show ('&' :: cs).flatMap textNodeEscChar =
        '&' :: 'a' :: 'm' :: 'p' :: ';' :: cs.flatMap textNodeEscChar from by
          simp [textNodeEscChar]]
      rw [ampEntityOk.eq_def]
      simp [entHead, ih]
    · by_cases h2 : c = '<'
      · subst h2
        rw [show ('<' :: cs).flatMap textNodeEscChar =
          '&' :: 'l' :: 't' :: ';' :: cs.flatMap textNodeEscChar from by
            simp [textNodeEscChar]]
        rw [ampEntityOk.eq_def]
        simp [entHead, ih]
      · by_cases h3 : c = '>'
        · subst h3
          rw [show ('>' :: cs).flatMap textNodeEscChar =
            '&' :: 'g' :: 't' :: ';' :: cs.flatMap textNodeEscChar from by
              simp [textNodeEscChar]]
          rw [ampEntityOk.eq_def]
          simp [entHead, ih]
        · by_cases h4 : c = '\u00A0'
          · subst h4
            rw [show ('\u00A0' :: cs).flatMap textNodeEscChar =
              '&' :: 'n' :: 'b' :: 's' :: 'p' :: ';' :: cs.flatMap textNodeEscChar from by
                simp [textNodeEscChar]]
            rw [ampEntityOk.eq_def]
            simp [entHead, ih]
          · rw [show (c :: cs).flatMap textNodeEscChar =
              c :: cs.flatMap textNodeEscChar from by
                simp [textNodeEscChar, h1, h2, h3, h4]]
            rw [ampEntityOk.eq_def]
            simp [h1, ih]

theorem escape_no_raw_lt (cs : List Char) (c' : Char)
    (hin : c' ∈ cs.flatMap textNodeEscChar) : c' ≠ '<' ∧ c' ≠ '>' := by
  rw [List.mem_flatMap] at hin
  obtain ⟨c, _, hc⟩ := hin
  unfold textNodeEscChar at hc
  split_ifs at hc with h1 h2 h3 h4
  · fin_cases hc <;> exact ⟨by decide, by decide⟩
  · fin_cases hc <;> exact ⟨by decide, by decide⟩
  · fin_cases hc <;> exact ⟨by decide, by decide⟩
  · fin_cases hc <;> exact ⟨by decide, by decide⟩
  · simp only [List.mem_singleton] at hc
    subst hc
    exact ⟨h2, h3⟩

/-! ## Page state and auth functions (`CONFIG`, `isLoggedIn`, `getUserData`,
`updateAuthUI`, `login`, `logout` from `js/main.js`) -/

/-- The `CONFIG.storageKey` constant. -/
def storageKey : String := "user_logged_in"

/-- The `CONFIG.userDataKey` constant. -/
def userDataKey : String := "user_data"

/-- The page as the script sees it: local storage, the three containers the
script writes (`none` = no element matches the selector), the custom events
dispatched so far, and any navigation target assigned to `location.href`. -/
structure PageState where
  storage : List (String × String)
  headerContainer : Option String
  footerContainer : Option String
  authContainer : Option String
  events : List String
  location : Option String
deriving DecidableEq, Repr

/-- The `isLoggedIn` check: `localStorage.getItem(CONFIG.storageKey) === 'true'`. -/
def isLoggedIn (storage : List (String × String)) : Bool :=
  getItem storage storageKey == some "true"

/-- The `getUserData` read: `data ? JSON.parse(data) : null`; a missing or empty
(falsy) record yields `null`, anything else is parsed — a parse failure
is a thrown `SyntaxError` (`Except.error`). -/
def getUserData (storage : List (String × String)) : Except Unit (Option JVal) :=
  match getItem storage userDataKey with
  | none => .ok none
  | some data =>
    if data = "" then .ok none
    else
      match parseJVal data with
      | none => .error ()
      | some v => .ok (some v)

/-- JavaScript property read `v?.k` on a parsed JSON value (`none` =
`undefined`); later duplicate keys override earlier ones as in object
construction. -/
def jsField (v : JVal) (k : String) : Option JPrim :=
  match v with
  | .obj fs => (fs.reverse.find? (fun p => p.1 == k)).map (fun p => p.2)
  | .prim _ => none

/-- JavaScript truthiness of a primitive (`''`, `0`, `false`, `null` are falsy). -/
def jsTruthy (p : JPrim) : Bool :=
  match p with
  | .str s => !(s == "")
  | .num n => !(n == 0)
  | .bool b => b
  | .null => false

/-- JavaScript string coercion of a primitive (template-literal interpolation). -/
def jsDisplay (p : JPrim) : String :=
  match p with
  | .str s => s
  | .num n => toString n
  | .bool b => if b then "true" else "false"
  | .null => "null"

/-- The `userData?.username || 'User'` part of the fallback chain. -/
def usernameFallback (u : Option JVal) : String :=
  match u.bind (fun v => jsField v "username") with
  | some un => if jsTruthy un then jsDisplay un else "User"
  | none => "User"

/-- The full fallback chain `userData?.email || userData?.username || 'User'`, coerced to text. -/
def pickUsername (u : Option JVal) : String :=
  match u.bind (fun v => jsField v "email") with
  | some e => if jsTruthy e then jsDisplay e else usernameFallback u
  | none => usernameFallback u

/-- The logged-in fragment written by `updateAuthUI` (exact template literal). -/
def welcomeHTML (username : String) : String :=
  "\n      <div class=\"user-welcome\">\n        <p>Welcome, <strong>" ++
    escapeHTML username ++
    "</strong></p>\n        <button class=\"logout-btn\" onclick=\"logout()\">Logout</button>\n      </div>\n    "

/-- The logged-out fragment written by `updateAuthUI` (exact template literal). -/
def loginLinkHTML : String :=
  "\n      <a href=\"login.html\" class=\"login-btn\">Login</a>\n    "

/-- The `updateAuthUI` renderer: early return when no `.auth-container` exists; otherwise
re-render one of the two fragments from the current storage state. -/
def updateAuthUI (st : PageState) : Except Unit PageState :=
  match st.authContainer with
  | none => .ok st
  | some _ =>
    if isLoggedIn st.storage then
      match getUserData st.storage with
      | .error e => .error e
      | .ok u => .ok { st with authContainer := some (welcomeHTML (pickUsername u)) }
    else
      .ok { st with authContainer := some loginLinkHTML }

/-- The object spread `{...userData, loginTime: nowIso}`: an existing
`loginTime` key keeps its position with the new value, otherwise the key
is appended. -/
def withLoginTime (userData : List (String × JPrim)) (nowIso : String) :
    List (String × JPrim) :=
  if userData.any (fun p => p.1 == "loginTime") then
    userData.map (fun p => if p.1 == "loginTime" then (p.1, JPrim.str nowIso) else p)
  else
    userData ++ [("loginTime", JPrim.str nowIso)]

/-- The `login(userData)` action: set both auth keys, dispatch `user:login`, re-render. -/
def login (st : PageState) (userData : List (String × JPrim)) (nowIso : String) :
    Except Unit PageState :=
  let s1 := setItem st.storage storageKey "true"
  let s2 := setItem s1 userDataKey
    (stringifyJVal (.obj (withLoginTime userData nowIso)))
  updateAuthUI { st with storage := s2, events := st.events ++ ["user:login"] }

/-- The `logout()` action: remove both auth keys, dispatch `user:logout`, re-render,
then navigate to the site root. -/
def logout (st : PageState) : Except Unit PageState :=
  let s1 := removeItem st.storage storageKey
  let s2 := removeItem s1 userDataKey
  (updateAuthUI { st with storage := s2, events := st.events ++ ["user:logout"] }).map
    (fun st2 => { st2 with location := some "/" })

/-! ## `loadTemplates` model

`fetch` outcomes are environment parameters; the function returns the new
page state together with the ordered trace of observable actions, which
lets us state initiation/resolution ordering of the two fetches. -/

/-- Outcome of one `fetch` call: fulfilled with a success response whose
`text()` yields `body`; fulfilled ok but `text()` rejects; fulfilled with a
non-ok HTTP status; or rejected outright. -/
inductive FetchOutcome where
  | success (body : String)
  | textReject
  | httpError (status : Nat)
  | reject
deriving DecidableEq, Repr

/-- The two fetch outcomes of one `loadTemplates` run. -/
structure FetchEnv where
  header : FetchOutcome
  footer : FetchOutcome
deriving DecidableEq, Repr

/-- Observable actions of `loadTemplates`, in program order. -/
inductive TAct where
  | headerFetchStart
  | headerResolved
  | headerRejected
  | headerInjected (body : String)
  | attachListeners
  | headerErrorLogged (status : Nat)
  | footerFetchStart
  | footerResolved
  | footerRejected
  | footerInjected (body : String)
  | footerErrorLogged (status : Nat)
  | catchLogged
deriving DecidableEq, Repr

/-- The footer half of `loadTemplates` (lines 50-57 of `js/main.js`),
reached only if the header half completed without throwing. -/
def footerPhase (outcome : FetchOutcome) (st : PageState) (acc : List TAct) :
    PageState × List TAct :=
  match outcome with
  | .reject => (st, acc ++ [.footerFetchStart, .footerRejected, .catchLogged])
  | .httpError n =>
    (st, acc ++ [.footerFetchStart, .footerResolved, .footerErrorLogged n])
  | .textReject => (st, acc ++ [.footerFetchStart, .footerResolved, .catchLogged])
  | .success b =>
    match st.footerContainer with
    | none => (st, acc ++ [.footerFetchStart, .footerResolved, .catchLogged])
    | some _ => ({ st with footerContainer := some b },
        acc ++ [.footerFetchStart, .footerResolved, .footerInjected b])

/-- The `loadTemplates` routine: awaits the header fetch, injects on success (throwing
into the shared `catch` when `#app-header` is missing), then awaits the
footer fetch; both halves sit inside one `try`/`catch`. -/
def loadTemplates (env : FetchEnv) (st : PageState) : PageState × List TAct :=
  match env.header with
  | .reject => (st, [.headerFetchStart, .headerRejected, .catchLogged])
  | .httpError n =>
    footerPhase env.footer st [.headerFetchStart, .headerResolved, .headerErrorLogged n]
  | .textReject => (st, [.headerFetchStart, .headerResolved, .catchLogged])
  | .success b =>
    match st.headerContainer with
    | none => (st, [.headerFetchStart, .headerResolved, .catchLogged])
    | some _ =>
      footerPhase env.footer { st with headerContainer := some b }
        [.headerFetchStart, .headerResolved, .headerInjected b, .attachListeners]

/-! ## Expiring-value storage utilities -/

/-- The `setStorageWithExpiry(key, value, expiryMinutes)` write at clock `now`
(epoch milliseconds): stores `{value, expiry: now + expiryMinutes*60*1000}`. -/
def setStorageWithExpiry (storage : List (String × String)) (key : String)
    (value : JPrim) (expiryMinutes : Int) (now : Int) : List (String × String) :=
  let expiryTime := now + expiryMinutes * 60 * 1000
  setItem storage key
    (stringifyJVal (.obj [("value", value), ("expiry", .num expiryTime)]))

/-- The JavaScript comparison `now > data.expiry` (`none` = `undefined`,
which compares false; strings coerce to numbers, non-numeric gives `NaN`
which also compares false). -/
def nowGreaterThan (now : Int) (p : Option JPrim) : Bool :=
  match p with
  | some (.num e) => decide (e < now)
  | some (.str s) =>
    match s.toInt? with
    | some e => decide (e < now)
    | none => false
  | some (.bool b) => decide ((if b then (1 : Int) else 0) < now)
  | some .null => decide (0 < now)
  | none => false

/-- The `getStorageWithExpiry(key)` read at clock `now`: returns the unexpired value
(or `none`) together with the possibly-updated storage; a malformed stored
item is a thrown parse error. -/
def getStorageWithExpiry (storage : List (String × String)) (key : String)
    (now : Int) : Except Unit (Option JPrim × List (String × String)) :=
  match getItem storage key with
  | none => .ok (none, storage)
  | some item =>
    if item = "" then .ok (none, storage)
    else
      match parseJVal item with
      | none => .error ()
      | some data =>
        if nowGreaterThan now (jsField data "expiry") then
          .ok (none, removeItem storage key)
        else
          .ok (jsField data "value", storage)

/-! ## `isValidEmail` -/

/-- JavaScript regex `\s` (whitespace class). -/
def jsWhitespace (c : Char) : Bool :=
  c ∈ [' ', '\t', '\n', '\x0b', '\x0c', '\r', '\u00A0', '\u1680', '\u2000',
    '\u2001', '\u2002', '\u2003', '\u2004', '\u2005', '\u2006', '\u2007',
    '\u2008', '\u2009', '\u200A', '\u2028', '\u2029', '\u202F', '\u205F',
    '\u3000', '\uFEFF']

/-- One character of the regex atom `[^\s@]`. -/
def emailAtomChar (c : Char) : Bool :=
  !(jsWhitespace c) && !(c == '@')

/-- Split the input at its first `@`, if any. -/
def splitFirstAt (cs : List Char) : Option (List Char × List Char) :=
  match cs with
  | [] => none
  | c :: rest =>
    if c = '@' then some ([], rest)
    else (splitFirstAt rest).map (fun pr => (c :: pr.1, pr.2))

/-- The domain part matches `[^\s@]+\.[^\s@]+` (given all its characters are
atoms) exactly when some dot sits strictly inside it. -/
def hasInteriorDot (m : List Char) : Bool :=
  ((m.drop 1).dropLast).contains '.'

/-- The `isValidEmail` check: the regex `^[^\s@]+@[^\s@]+\.[^\s@]+$`.  The string must
split as `local@domain` with a nonempty all-atom local part and an all-atom
domain containing an interior dot; this is equivalent to the regex since
`[^\s@]` matches dots and excludes `@` (so a matching string has exactly
one `@`, necessarily the first). -/
def isValidEmail (email : String) : Bool :=
  match splitFirstAt email.data with
  | none => false
  | some (localPart, domain) =>
    !(localPart.isEmpty) && localPart.all emailAtomChar &&
    !(domain.isEmpty) && domain.all emailAtomChar && hasInteriorDot domain

/-! ## Helper lemmas about the auth functions -/

theorem updateAuthUI_frame {st st' : PageState} (h : updateAuthUI st = .ok st') :
    st'.storage = st.storage ∧ st'.headerContainer = st.headerContainer ∧
    st'.footerContainer = st.footerContainer ∧ st'.events = st.events ∧
    st'.location = st.location := by
  unfold updateAuthUI at h
  split at h
  · cases h
    exact ⟨rfl, rfl, rfl, rfl, rfl⟩
  · split at h
    · split at h
      · exact absurd h (by simp)
      · cases h
        exact ⟨rfl, rfl, rfl, rfl, rfl⟩
    · cases h
      exact ⟨rfl, rfl, rfl, rfl, rfl⟩

theorem updateAuthUI_no_container {st : PageState} (h : st.authContainer = none) :
    updateAuthUI st = .ok st := by
  unfold updateAuthUI
  rw [h]

theorem updateAuthUI_loggedOut {st : PageState} {c : String}
    (hc : st.authContainer = some c) (h : isLoggedIn st.storage = false) :
    updateAuthUI st = .ok { st with authContainer := some loginLinkHTML } := by
  unfold updateAuthUI
  rw [hc, h]
  simp

theorem updateAuthUI_loggedIn {st : PageState} {c : String} {u : Option JVal}
    (hc : st.authContainer = some c) (h : isLoggedIn st.storage = true)
    (hu : getUserData st.storage = .ok u) :
    updateAuthUI st =
      .ok { st with authContainer := some (welcomeHTML (pickUsername u)) } := by
  unfold updateAuthUI
  rw [hc, h, hu]
  simp

theorem updateAuthUI_parse_error {st : PageState} {c : String}
    (hc : st.authContainer = some c) (h : isLoggedIn st.storage = true)
    (hu : getUserData st.storage = .error ()) :
    updateAuthUI st = .error () := by
  unfold updateAuthUI
  rw [hc, h, hu]
  simp

/-! ## Claims -/

/-- C9: `updateAuthUI` is idempotent — with storage unchanged, running it a
second time returns exactly the result of the first run (same auth-container
content, nothing else changed); a thrown parse error likewise reproduces. -/
theorem updateAuthUI_idempotent (st : PageState) :
    (updateAuthUI st).bind updateAuthUI = updateAuthUI st := by
  cases hac : st.authContainer with
  | none =>
    have h := updateAuthUI_no_container hac
    rw [h]
    exact h
  | some c =>
    cases hli : isLoggedIn st.storage with
    | false =>
      have h := updateAuthUI_loggedOut hac hli
      rw [h]
      show updateAuthUI { st with authContainer := some loginLinkHTML } = _
      rw [@updateAuthUI_loggedOut { st with authContainer := some loginLinkHTML }
        loginLinkHTML rfl hli]
    | true =>
      cases hu : getUserData st.storage with
      | error e =>
        cases e
        have h := updateAuthUI_parse_error hac hli hu
        rw [h]
        rfl
      | ok u =>
        have h := updateAuthUI_loggedIn hac hli hu
        rw [h]
        show updateAuthUI
          { st with authContainer := some (welcomeHTML (pickUsername u)) } = _
        rw [@updateAuthUI_loggedIn
          { st with authContainer := some (welcomeHTML (pickUsername u)) }
          (welcomeHTML (pickUsername u)) u rfl hli hu]

/-- C10: with no element matching `.auth-container`, `updateAuthUI` returns
without an error and leaves the whole page state (DOM and storage) unchanged,
whatever the login flag and user-data record contain. -/
theorem updateAuthUI_missing_container (st : PageState)
    (h : st.authContainer = none) : updateAuthUI st = .ok st :=
  updateAuthUI_no_container h

/-- Witness for C10 at a concrete state (flag set, malformed record stored). -/
theorem updateAuthUI_missing_container_witness :
    updateAuthUI ⟨[("user_logged_in", "true"), ("user_data", "\x7b")],
        none, none, none, [], none⟩ =
      .ok ⟨[("user_logged_in", "true"), ("user_data", "\x7b")],
        none, none, none, [], none⟩ :=
  updateAuthUI_missing_container _ rfl

/-- C3 counterexample: the login flag is `'true'`, the user-data record is
present (`'\x7b'`) and unparseable, yet `updateAuthUI` returns normally —
because no `.auth-container` element exists, the early return fires before
any parse is attempted.  The claim, which promises an uncaught parse error
for every such call, is therefore false. -/
theorem updateAuthUI_malformed_no_throw_cex :
    isLoggedIn [("user_logged_in", "true"), ("user_data", "\x7b")] = true ∧
    getItem [("user_logged_in", "true"), ("user_data", "\x7b")] userDataKey =
      some "\x7b" ∧
    parseJVal "\x7b" = none ∧
    updateAuthUI ⟨[("user_logged_in", "true"), ("user_data", "\x7b")],
        none, none, none, [], none⟩ =
      .ok ⟨[("user_logged_in", "true"), ("user_data", "\x7b")],
        none, none, none, [], none⟩ :=
  ⟨rfl, rfl, rfl, rfl⟩

/-- C3 amended: if additionally an auth container is present (and the stored
record is nonempty, since an empty string is falsy and short-circuits to
`null` before parsing), the parse failure does propagate out of
`updateAuthUI` as an uncaught error. -/
theorem updateAuthUI_malformed_throws (st : PageState) (c s : String)
    (hc : st.authContainer = some c) (hli : isLoggedIn st.storage = true)
    (hd : getItem st.storage userDataKey = some s) (hne : s ≠ "")
    (hp : parseJVal s = none) : updateAuthUI st = .error () := by
  have hu : getUserData st.storage = .error () := by
    unfold getUserData
    rw [hd]
    simp [hne, hp]
  exact updateAuthUI_parse_error hc hli hu

/-- Witness for the amended C3 at a concrete state. -/
theorem updateAuthUI_malformed_throws_witness :
    updateAuthUI ⟨[("user_logged_in", "true"), ("user_data", "\x7b")],
        none, none, some "", [], none⟩ = .error () :=
  updateAuthUI_malformed_throws _ "" "\x7b" rfl rfl rfl (by decide) rfl

theorem removeItem_append (a b : List (String × String)) (k : String) :
    removeItem (a ++ b) k = removeItem a k ++ removeItem b k := by
  simp [removeItem, List.filter_append]

theorem removeItem_nil (k : String) : removeItem [] k = [] := rfl

theorem removeItem_single_eq (k v : String) : removeItem [(k, v)] k = [] := by
  simp [removeItem]

theorem removeItem_single_ne (k k' v : String) (h : k ≠ k') :
    removeItem [(k, v)] k' = [(k, v)] := by
  have hb : (k == k') = false := by simpa using h
  simp [removeItem, List.filter, hb]

/-- C4: starting from a storage state in which both auth keys are absent,
`login(userData)` followed by `logout()` leaves both auth keys absent again
and in fact restores the storage list exactly, for every `userData` object
and login timestamp. -/
theorem login_logout_roundtrip (st st1 st2 : PageState)
    (userData : List (String × JPrim)) (nowIso : String)
    (hflag : getItem st.storage storageKey = none)
    (hdata : getItem st.storage userDataKey = none)
    (hlogin : login st userData nowIso = .ok st1)
    (hlogout : logout st1 = .ok st2) :
    getItem st2.storage storageKey = none ∧
    getItem st2.storage userDataKey = none ∧
    st2.storage = st.storage := by
  have hne : storageKey ≠ userDataKey := by decide
  have hne' : userDataKey ≠ storageKey := by decide
  unfold login at hlogin
  have hl1 : st1.storage =
      setItem (setItem st.storage storageKey "true") userDataKey
        (stringifyJVal (.obj (withLoginTime userData nowIso))) :=
    (updateAuthUI_frame hlogin).1
  have hlogout2 : Except.map (fun st3 => { st3 with location := some "/" })
      (updateAuthUI
        { st1 with
          storage := removeItem (removeItem st1.storage storageKey) userDataKey,
          events := st1.events ++ ["user:logout"] }) = .ok st2 := hlogout
  cases hua : updateAuthUI
      { st1 with
        storage := removeItem (removeItem st1.storage storageKey) userDataKey,
        events := st1.events ++ ["user:logout"] } with
  | error e =>
    rw [hua] at hlogout2
    simp [Except.map] at hlogout2
  | ok y =>
    rw [hua] at hlogout2
    simp only [Except.map] at hlogout2
    cases hlogout2
    have hy : y.storage = removeItem (removeItem st1.storage storageKey) userDataKey :=
      (updateAuthUI_frame hua).1
    have hd1 : getItem (st.storage ++ [(storageKey, "true")]) userDataKey = none := by
      rw [getItem_append_single_ne _ _ _ _ hne]
      exact hdata
    have r4 : ∀ v, removeItem [(userDataKey, v)] storageKey = [(userDataKey, v)] :=
      fun v => removeItem_single_ne _ _ v hne'
    have hst2 : y.storage = st.storage := by
      rw [hy, hl1, setItem_of_absent _ _ _ hflag, setItem_of_absent _ _ _ hd1]
      simp only [removeItem_append, removeItem_of_absent _ _ hflag,
        removeItem_single_eq, r4, removeItem_of_absent _ _ hdata,
        removeItem_nil, List.append_nil]
    exact ⟨by rw [show ({ y with location := some "/" } : PageState).storage = y.storage
        from rfl, hst2]; exact hflag,
      by rw [show ({ y with location := some "/" } : PageState).storage = y.storage
        from rfl, hst2]; exact hdata,
      by rw [show ({ y with location := some "/" } : PageState).storage = y.storage
        from rfl]; exact hst2⟩

/-- Witness for C4 at a concrete run (empty storage; no auth container). -/
theorem login_logout_roundtrip_witness :
    getItem ([] : List (String × String)) storageKey = none ∧
    getItem ([] : List (String × String)) userDataKey = none := by
  have h := login_logout_roundtrip
    ⟨[], none, none, none, [], none⟩
    ⟨[("user_logged_in", "true"),
      ("user_data", "\x7b\"email\":\"a@b.com\",\"loginTime\":\"T\"\x7d")],
      none, none, none, ["user:login"], none⟩
    ⟨[], none, none, none, ["user:login", "user:logout"], some "/"⟩
    [("email", .str "a@b.com")] "T" rfl rfl rfl rfl
  exact ⟨h.1, h.2.1⟩

/-- C5: each write path keeps the two auth keys synchronized — after a
successful `login` both keys are present (the flag is `'true'`), and after
`logout` both keys are absent; no call leaves exactly one of them set. -/
theorem auth_keys_sync :
    (∀ (st st' : PageState) (userData : List (String × JPrim)) (nowIso : String),
      login st userData nowIso = .ok st' →
        getItem st'.storage storageKey = some "true" ∧
        ∃ j, getItem st'.storage userDataKey = some j) ∧
    (∀ (st st' : PageState), logout st = .ok st' →
        getItem st'.storage storageKey = none ∧
        getItem st'.storage userDataKey = none) := by
  have hne : storageKey ≠ userDataKey := by decide
  have hne' : userDataKey ≠ storageKey := by decide
  constructor
  · intro st st' userData nowIso hlogin
    unfold login at hlogin
    have h1 : st'.storage =
        setItem (setItem st.storage storageKey "true") userDataKey
          (stringifyJVal (.obj (withLoginTime userData nowIso))) :=
      (updateAuthUI_frame hlogin).1
    rw [h1]
    constructor
    · rw [getItem_setItem_ne _ _ _ _ hne']
      exact getItem_setItem _ _ _
    · exact ⟨_, getItem_setItem _ _ _⟩
  · intro st st' hlogout
    have hlogout2 : Except.map (fun st3 => { st3 with location := some "/" })
        (updateAuthUI
          { st with
            storage := removeItem (removeItem st.storage storageKey) userDataKey,
            events := st.events ++ ["user:logout"] }) = .ok st' := hlogout
    cases hua : updateAuthUI
        { st with
          storage := removeItem (removeItem st.storage storageKey) userDataKey,
          events := st.events ++ ["user:logout"] } with
    | error e =>
      rw [hua] at hlogout2
      simp [Except.map] at hlogout2
    | ok y =>
      rw [hua] at hlogout2
      simp only [Except.map] at hlogout2
      cases hlogout2
      have hy : y.storage =
          removeItem (removeItem st.storage storageKey) userDataKey :=
        (updateAuthUI_frame hua).1
      show getItem y.storage storageKey = none ∧ getItem y.storage userDataKey = none
      rw [hy]
      constructor
      · rw [getItem_removeItem_ne _ _ _ hne']
        exact getItem_removeItem _ _
      · exact getItem_removeItem _ _

/-- Witness for C5: a concrete login sets both keys; a concrete logout
clears both keys. -/
theorem auth_keys_sync_witness :
    (getItem [("user_logged_in", "true"),
        ("user_data", "\x7b\"loginTime\":\"T\"\x7d")] storageKey = some "true") ∧
    (getItem ([] : List (String × String)) storageKey = none) := by
  have h1 := auth_keys_sync.1
    ⟨[], none, none, none, [], none⟩
    ⟨[("user_logged_in", "true"), ("user_data", "\x7b\"loginTime\":\"T\"\x7d")],
      none, none, none, ["user:login"], none⟩
    [] "T" rfl
  have h2 := auth_keys_sync.2
    ⟨[("user_logged_in", "true"), ("user_data", "\x7b\"loginTime\":\"T\"\x7d")],
      none, none, none, [], none⟩
    ⟨[], none, none, none, ["user:logout"], some "/"⟩ rfl
  exact ⟨h1.1, h2.1⟩

/-! ## Helper lemmas about `footerPhase` -/

theorem footerPhase_starts (o : FetchOutcome) (st : PageState) (acc : List TAct) :
    ∃ tail, (footerPhase o st acc).2 = acc ++ TAct.footerFetchStart :: tail := by
  cases o with
  | reject => exact ⟨[.footerRejected, .catchLogged], rfl⟩
  | httpError n => exact ⟨[.footerResolved, .footerErrorLogged n], rfl⟩
  | textReject => exact ⟨[.footerResolved, .catchLogged], rfl⟩
  | success b =>
    cases hc : st.footerContainer with
    | none => exact ⟨[.footerResolved, .catchLogged], by simp [footerPhase, hc]⟩
    | some c => exact ⟨[.footerResolved, .footerInjected b], by simp [footerPhase, hc]⟩

theorem footerPhase_header (o : FetchOutcome) (st : PageState) (acc : List TAct) :
    (footerPhase o st acc).1.headerContainer = st.headerContainer := by
  cases o with
  | reject => rfl
  | httpError n => rfl
  | textReject => rfl
  | success b => cases hc : st.footerContainer <;> simp [footerPhase, hc]

theorem footerPhase_not_success (o : FetchOutcome) (st : PageState) (acc : List TAct)
    (h : ∀ b, o ≠ .success b) : (footerPhase o st acc).1 = st := by
  cases o with
  | reject => rfl
  | httpError n => rfl
  | textReject => rfl
  | success b => exact absurd rfl (h b)

theorem footerPhase_change (o : FetchOutcome) (st : PageState) (acc : List TAct)
    (h : (footerPhase o st acc).1.footerContainer ≠ st.footerContainer) :
    ∃ b, o = .success b ∧ (footerPhase o st acc).1.footerContainer = some b := by
  cases o with
  | reject => exact absurd rfl h
  | httpError n => exact absurd rfl h
  | textReject => exact absurd rfl h
  | success b =>
    cases hc : st.footerContainer with
    | none =>
      simp [footerPhase, hc] at h
    | some c => exact ⟨b, rfl, by simp [footerPhase, hc]⟩

/-- C2: frame property of `loadTemplates` — a container whose fetch did not
come back as a success response keeps exactly its prior content, and any
container that changed did so because its fetch succeeded, in which case it
now holds the fetched text. -/
theorem loadTemplates_frame (env : FetchEnv) (st : PageState) :
    ((∀ b, env.header ≠ .success b) →
      (loadTemplates env st).1.headerContainer = st.headerContainer) ∧
    ((∀ b, env.footer ≠ .success b) →
      (loadTemplates env st).1.footerContainer = st.footerContainer) ∧
    ((loadTemplates env st).1.headerContainer ≠ st.headerContainer →
      ∃ b, env.header = .success b ∧
        (loadTemplates env st).1.headerContainer = some b) ∧
    ((loadTemplates env st).1.footerContainer ≠ st.footerContainer →
      ∃ b, env.footer = .success b ∧
        (loadTemplates env st).1.footerContainer = some b) := by
  cases henv : env.header with
  | reject =>
    refine ⟨fun _ => ?_, fun _ => ?_, fun h => ?_, fun h => ?_⟩ <;>
      simp [loadTemplates, henv] at *
  | textReject =>
    refine ⟨fun _ => ?_, fun _ => ?_, fun h => ?_, fun h => ?_⟩ <;>
      simp [loadTemplates, henv] at *
  | httpError n =>
    have hload : loadTemplates env st = footerPhase env.footer st
        [.headerFetchStart, .headerResolved, .headerErrorLogged n] := by
      simp [loadTemplates, henv]
    refine ⟨fun _ => ?_, fun hns => ?_, fun h => ?_, fun h => ?_⟩
    · rw [hload]
      exact footerPhase_header _ _ _
    · rw [hload, footerPhase_not_success _ _ _ hns]
    · rw [hload, footerPhase_header _ _ _] at h
      exact absurd rfl h
    · rw [hload] at h ⊢
      exact footerPhase_change _ _ _ h
  | success b =>
    cases hc : st.headerContainer with
    | none =>
      have hload : loadTemplates env st = (st,
          [.headerFetchStart, .headerResolved, .catchLogged]) := by
        simp [loadTemplates, henv, hc]
      refine ⟨fun _ => by rw [hload]; exact hc, fun _ => by rw [hload],
        fun h => ?_, fun h => ?_⟩
      · rw [hload] at h
        exact absurd hc h
      · rw [hload] at h
        exact absurd rfl h
    | some c =>
      have hload : loadTemplates env st = footerPhase env.footer
          { st with headerContainer := some b }
          [.headerFetchStart, .headerResolved, .headerInjected b,
            .attachListeners] := by
        simp [loadTemplates, henv, hc]
      refine ⟨fun hns => ?_, fun hns => ?_, fun h => ?_, fun h => ?_⟩
      · exact absurd rfl (hns b)
      · rw [hload, footerPhase_not_success _ _ _ hns]
      · refine ⟨b, rfl, ?_⟩
        rw [hload, footerPhase_header _ _ _]
      · rw [hload] at h ⊢
        have h2 : (footerPhase env.footer { st with headerContainer := some b }
            [.headerFetchStart, .headerResolved, .headerInjected b,
              .attachListeners]).1.footerContainer ≠
            ({ st with headerContainer := some b } : PageState).footerContainer := h
        exact footerPhase_change _ _ _ h2

/-- Witness for C2: a failed header fetch (HTTP 500) and a rejected footer
fetch leave both containers exactly as they were. -/
theorem loadTemplates_frame_witness :
    (loadTemplates ⟨.httpError 500, .reject⟩
        ⟨[], some "H0", some "F0", none, [], none⟩).1.headerContainer = some "H0" ∧
    (loadTemplates ⟨.httpError 500, .reject⟩
        ⟨[], some "H0", some "F0", none, [], none⟩).1.footerContainer = some "F0" := by
  have h := loadTemplates_frame ⟨.httpError 500, .reject⟩
    ⟨[], some "H0", some "F0", none, [], none⟩
  exact ⟨h.1 (fun b hb => FetchOutcome.noConfusion hb),
    h.2.1 (fun b hb => FetchOutcome.noConfusion hb)⟩

/-- C1 counterexample: with the header fetch rejecting and the footer fetch
set to succeed with body `"F"`, and both containers present, `loadTemplates`
never initiates the footer fetch (the rejection lands in the shared `catch`)
and the footer container keeps its prior content `"F0"` — contradicting the
claim that a header failure still lets the footer fetch run and inject. -/
theorem loadTemplates_not_independent_cex :
    (loadTemplates ⟨.reject, .success "F"⟩
        ⟨[], some "H0", some "F0", none, [], none⟩).2 =
      [.headerFetchStart, .headerRejected, .catchLogged] ∧
    ((loadTemplates ⟨.reject, .success "F"⟩
        ⟨[], some "H0", some "F0", none, [], none⟩).2.contains
      TAct.footerFetchStart) = false ∧
    (loadTemplates ⟨.reject, .success "F"⟩
        ⟨[], some "H0", some "F0", none, [], none⟩).1.footerContainer =
      some "F0" := by
  refine ⟨rfl, ?_, rfl⟩
  rfl

/-- C1 amended: the two fetches are sequential, not independent.  If the
header response is a non-success HTTP status the footer fetch is still
initiated and, on a success response with its container present, the footer
container receives the fetched text; but if the header fetch rejects, its
body read rejects, or header injection throws (missing container), the
shared `catch` ends `loadTemplates` and the footer fetch is never initiated.
Moreover the footer fetch is only ever initiated after the header fetch has
resolved. -/
theorem loadTemplates_sequencing :
    (∀ (env : FetchEnv) (st : PageState) (n : Nat), env.header = .httpError n →
      ((loadTemplates env st).2.contains TAct.footerFetchStart) = true ∧
      (∀ b c, env.footer = .success b → st.footerContainer = some c →
        (loadTemplates env st).1.footerContainer = some b)) ∧
    (∀ (env : FetchEnv) (st : PageState), env.header = .reject →
      ((loadTemplates env st).2.contains TAct.footerFetchStart) = false) ∧
    (∀ (env : FetchEnv) (st : PageState), env.header = .textReject →
      ((loadTemplates env st).2.contains TAct.footerFetchStart) = false) ∧
    (∀ (env : FetchEnv) (st : PageState) (b : String), env.header = .success b →
      st.headerContainer = none →
      ((loadTemplates env st).2.contains TAct.footerFetchStart) = false) ∧
    (∀ (env : FetchEnv) (st : PageState),
      TAct.footerFetchStart ∈ (loadTemplates env st).2 →
      ∃ pre post, (loadTemplates env st).2 = pre ++ TAct.footerFetchStart :: post ∧
        TAct.headerResolved ∈ pre) := by
  refine ⟨?_, ?_, ?_, ?_, ?_⟩
  · intro env st n henv
    have hload : loadTemplates env st = footerPhase env.footer st
        [.headerFetchStart, .headerResolved, .headerErrorLogged n] := by
      simp [loadTemplates, henv]
    constructor
    · obtain ⟨tail, ht⟩ := footerPhase_starts env.footer st
        [.headerFetchStart, .headerResolved, .headerErrorLogged n]
      rw [hload, ht]
      simp
    · intro b c hfoot hc
      rw [hload, hfoot]
      simp [footerPhase, hc]
  · intro env st henv
    simp [loadTemplates, henv]
  · intro env st henv
    simp [loadTemplates, henv]
  · intro env st b henv hc
    simp [loadTemplates, henv, hc]
  · intro env st hmem
    cases henv : env.header with
    | reject =>
      rw [show loadTemplates env st =
        (st, [.headerFetchStart, .headerRejected, .catchLogged]) from by
          simp [loadTemplates, henv]] at hmem
      simp at hmem
    | textReject =>
      rw [show loadTemplates env st =
        (st, [.headerFetchStart, .headerResolved, .catchLogged]) from by
          simp [loadTemplates, henv]] at hmem
      simp at hmem
    | httpError n =>
      obtain ⟨tail, ht⟩ := footerPhase_starts env.footer st
        [.headerFetchStart, .headerResolved, .headerErrorLogged n]
      refine ⟨[.headerFetchStart, .headerResolved, .headerErrorLogged n], tail, ?_, ?_⟩
      · rw [show loadTemplates env st = footerPhase env.footer st
          [.headerFetchStart, .headerResolved, .headerErrorLogged n] from by
            simp [loadTemplates, henv]]
        exact ht
      · simp
    | success b =>
      cases hc : st.headerContainer with
      | none =>
        rw [show loadTemplates env st =
          (st, [.headerFetchStart, .headerResolved, .catchLogged]) from by
            simp [loadTemplates, henv, hc]] at hmem
        simp at hmem
      | some c =>
        obtain ⟨tail, ht⟩ := footerPhase_starts env.footer
          { st with headerContainer := some b }
          [.headerFetchStart, .headerResolved, .headerInjected b, .attachListeners]
        refine ⟨[.headerFetchStart, .headerResolved, .headerInjected b,
          .attachListeners], tail, ?_, ?_⟩
        · rw [show loadTemplates env st = footerPhase env.footer
            { st with headerContainer := some b }
            [.headerFetchStart, .headerResolved, .headerInjected b,
              .attachListeners] from by
              simp [loadTemplates, henv, hc]]
          exact ht
        · simp

/-- Witness for the amended C1: header HTTP 404, footer success `"F"` with
container `"F0"` present — the footer fetch is initiated and the footer
container is replaced with `"F"`. -/
theorem loadTemplates_sequencing_witness :
    ((loadTemplates ⟨.httpError 404, .success "F"⟩
        ⟨[], some "H0", some "F0", none, [], none⟩).2.contains
      TAct.footerFetchStart) = true ∧
    (loadTemplates ⟨.httpError 404, .success "F"⟩
        ⟨[], some "H0", some "F0", none, [], none⟩).1.footerContainer =
      some "F" := by
  have h := loadTemplates_sequencing.1 ⟨.httpError 404, .success "F"⟩
    ⟨[], some "H0", some "F0", none, [], none⟩ 404 rfl
  exact ⟨h.1, h.2 "F" "F0" rfl rfl⟩

/-- C6 counterexample: `escapeHTML` passes the double-quote and the
apostrophe through unchanged (the browser's text-node serialization escapes
only `&`, `<`, `>` and U+00A0), so the claim that every occurrence of each
character in `< > & \x22 \x27` is replaced by an entity is false. -/
theorem escapeHTML_quote_unescaped_cex :
    escapeHTML (String.mk ['\x22']) = String.mk ['\x22'] ∧
    escapeHTML (String.mk ['\x27']) = String.mk ['\x27'] :=
  ⟨rfl, rfl⟩

/-- C6 amended: `escapeHTML "<b>x</b>"` equals `"&lt;b&gt;x&lt;/b&gt;"`, and
for every input every `&`, `<` and `>` is escaped to its entity: the output
never contains a raw `<` or `>`, every `&` in it starts an entity, and
decoding the four entities recovers the input exactly.  Double quotes and
apostrophes are not escaped (see the counterexample). -/
theorem escapeHTML_amended :
    escapeHTML "<b>x</b>" = "&lt;b&gt;x&lt;/b&gt;" ∧
    escapeHTML "&" = "&amp;" ∧
    (∀ s : String, decodeEnt (escapeHTML s).data = s.data) ∧
    (∀ s : String, ((escapeHTML s).data.contains '<') = false) ∧
    (∀ s : String, ((escapeHTML s).data.contains '>') = false) ∧
    (∀ s : String, ampEntityOk (escapeHTML s).data = true) := by
  refine ⟨rfl, rfl, ?_, ?_, ?_, ?_⟩
  · intro s
    exact decodeEnt_escape s.data
  · intro s
    have : '<' ∉ (escapeHTML s).data :=
      fun hmem => (escape_no_raw_lt s.data '<' hmem).1 rfl
    simpa using this
  · intro s
    have : '>' ∉ (escapeHTML s).data :=
      fun hmem => (escape_no_raw_lt s.data '>' hmem).2 rfl
    simpa using this
  · intro s
    exact ampEntityOk_escape s.data

theorem stringify_obj_ne_empty (fs : List (String × JPrim)) :
    stringifyJVal (.obj fs) ≠ "" := by
  intro h
  have h2 := congrArg String.data h
  simp [stringifyJVal] at h2

/-- C7 counterexample: an entry stored with a zero-minute expiry and read at
the same clock millisecond is *not* absent — the strict `>` comparison is
false at equality, so the value comes back and the key stays in storage. -/
theorem expiry_zero_same_instant_cex :
    getStorageWithExpiry (setStorageWithExpiry [] "k" (.str "v") 0 0) "k" 0 =
      .ok (some (.str "v"), setStorageWithExpiry [] "k" (.str "v") 0 0) := by
  rfl

/-- C7 amended: a `setStorageWithExpiry` entry with zero-or-negative minutes
is absent on a following read exactly when the reading clock strictly
exceeds the stored expiry instant `tset + m*60*1000` (so: always, for
negative minutes and a read at or after the write; only for a strictly
later clock tick, for zero minutes): the read returns the no-value result
and removes the key. -/
theorem getStorage_after_nonpositive_expiry (storage : List (String × String))
    (key : String) (value : JPrim) (m tset tget : Int) (hm : m ≤ 0)
    (h : tset + m * 60 * 1000 < tget) :
    getStorageWithExpiry (setStorageWithExpiry storage key value m tset) key tget =
      .ok (none, removeItem (setStorageWithExpiry storage key value m tset) key) := by
  have hne2 : stringifyJVal
      (.obj [("value", value), ("expiry", .num (tset + m * 60 * 1000))]) ≠ "" :=
    stringify_obj_ne_empty _
  have hf : jsField (JVal.obj [("value", value), ("expiry", .num (tset + m * 60 * 1000))])
      "expiry" = some (.num (tset + m * 60 * 1000)) := by
    simp [jsField, List.find?]
  have hgt : nowGreaterThan tget (some (.num (tset + m * 60 * 1000))) = true := by
    simp only [nowGreaterThan, decide_eq_true_eq]
    omega
  unfold setStorageWithExpiry getStorageWithExpiry
  simp [getItem_setItem, hne2, parse_stringify, hf, hgt]

/-- Witness for the amended C7: minus-one-minute expiry written and read at
the same clock value 0 — the entry is gone and the key removed. -/
theorem getStorage_after_nonpositive_expiry_witness :
    getStorageWithExpiry (setStorageWithExpiry [] "k" (.str "v") (-1) 0) "k" 0 =
      .ok (none, removeItem (setStorageWithExpiry [] "k" (.str "v") (-1) 0) "k") :=
  getStorage_after_nonpositive_expiry [] "k" (.str "v") (-1) 0 0
    (by decide) (by decide)

/-- C8: `isValidEmail` accepts `a@b.co` and `user@example.com` and rejects
`a@b`, `@b.co`, `a b@c.com`, `user@`, `@example.com` and
`user example.com`. -/
theorem isValidEmail_cases :
    isValidEmail "a@b.co" = true ∧
    isValidEmail "user@example.com" = true ∧
    isValidEmail "a@b" = false ∧
    isValidEmail "@b.co" = false ∧
    isValidEmail "a b@c.com" = false ∧
    isValidEmail "user@" = false ∧
    isValidEmail "@example.com" = false ∧
    isValidEmail "user example.com" = false := by
  refine ⟨?_, ?_, ?_, ?_, ?_, ?_, ?_, ?_⟩ <;> decide
